import Mathlib

/-!
# Verification of the chess-analyzer core (`src/analysis/analyzer.py`)

Shallow embedding of the `ChessAnalyzer` class.  The external `chess`
library (board representation, PGN parsing, move application, engine
transport) is modelled abstractly:

* a `Board` carries the per-colour piece counts that `board.pieces`
  exposes, the side to move (`board.turn`, `true` = white as in
  python-chess), and the string `board.fen()` would return;
* PGN parsing (`chess.pgn.read_game`) is modelled by its result, an
  `Option Game`: `none` is an unparsable text, `some g` a parsed game
  with its initial board and mainline move list;
* move application (`board.push`) is an arbitrary function
  `push : Board → Move → Board`, universally quantified in theorems;
* a live engine is an `Engine` whose `analyse` field returns `none`
  when the call (or score extraction) raises — the `except:` branches
  of the source — and otherwise the extracted centipawn score together
  with the first principal-variation move in UCI form, if any;
  `self.engine` is an `Option Engine` (`none` = discovery and startup
  failed, the state `_ensure_engine` leaves behind in that case).

All functions are total: the Python code paths that can raise are made
explicit (`PosEvalResult.raised` below); everything else returns
normally in the source as well.
-/

namespace ChessAnalyzer

/-- The six piece kinds of `chess.PieceType` used by `_material_eval`. -/
inductive PieceType where
  | pawn | knight | bishop | rook | queen | king
deriving DecidableEq, Repr

/-- The `values` dict of `_material_eval` (centipawns). -/
def piece_value : PieceType → Int
  | .pawn => 100
  | .knight => 300
  | .bishop => 300
  | .rook => 500
  | .queen => 900
  | .king => 0

/-- Iteration order of the `values` dict in `_material_eval`. -/
def pieceTypes : List PieceType :=
  [.pawn, .knight, .bishop, .rook, .queen, .king]

/-- Abstract board state: what the analyzer reads off a `chess.Board`.
`pieces c t` is `len(board.pieces(t, c))` with `true` = `chess.WHITE`;
`turn` is `board.turn`; `fen` is the string `board.fen()` returns. -/
structure Board where
  pieces : Bool → PieceType → Nat
  turn : Bool
  fen : String

/-- `ChessAnalyzer._material_eval`: naive material evaluation in
centipawns from the side to move's perspective. -/
def material_eval (board : Board) : Int :=
  let white : Int :=
    (pieceTypes.map (fun pt => (board.pieces true pt : Int) * piece_value pt)).sum
  let black : Int :=
    (pieceTypes.map (fun pt => (board.pieces false pt : Int) * piece_value pt)).sum
  let eval_cp := white - black
  if board.turn = true then eval_cp else -eval_cp

/-- A mainline move as the analyzer uses it: only `move.uci()` is read. -/
structure Move where
  uci : String

/-- The result of `chess.pgn.read_game` when parsing succeeds:
`game.board()` and `list(game.mainline_moves())`. -/
structure Game where
  board : Board
  mainline : List Move

/-- A live engine handle.  `analyse b d` models
`self.engine.analyse(b, chess.engine.Limit(depth=d))` followed by score
extraction: `none` when the call raises (the bare `except:` paths set
the score to 0 and the best move to `None`), otherwise the extracted
centipawn score and the first PV move in UCI form, if any. -/
structure Engine where
  analyse : Board → Nat → Option (Int × Option String)

/-- One entry of `analysis["moves"]` built in `analyze_game`. -/
structure MoveRecord where
  move_number : Nat
  move : String
  score_before : Int
  score_after : Int
  score_change : Int
  best_move : Option String
  fen : String
deriving DecidableEq, Repr

/-- `analysis["summary"]`.  `accuracy` is modelled as an exact rational;
the Python float division is its floating-point approximation. -/
structure Summary where
  total_moves : Nat
  blunder_count : Nat
  mistake_count : Nat
  accuracy : Rat
deriving DecidableEq, Repr

/-- The successful analysis dictionary. -/
structure Analysis where
  moves : List MoveRecord
  blunders : List MoveRecord
  mistakes : List MoveRecord
  summary : Summary
deriving DecidableEq, Repr

/-- Return value of `analyze_game`: either the `{"error": msg}` dict or
the filled-in analysis dict. -/
inductive AnalyzeResult where
  | error (msg : String)
  | ok (a : Analysis)
deriving DecidableEq, Repr

/-- The "evaluation before move" block of the loop body: engine analyse
with fallback to 0 on exception, or `_material_eval` with no engine. -/
def evalBefore (engine : Option Engine) (depth : Nat) (board : Board) : Int :=
  match engine with
  | some e =>
    match e.analyse board depth with
    | some (s, _) => s
    | none => 0
  | none => material_eval board

/-- The "evaluation after move" block of the loop body: also extracts
the best move from the PV; on exception both fall back (0, `None`);
with no engine the material fallback never produces a best move. -/
def evalAfter (engine : Option Engine) (depth : Nat) (board : Board) :
    Int × Option String :=
  match engine with
  | some e =>
    match e.analyse board depth with
    | some (s, b) => (s, b)
    | none => (0, none)
  | none => (material_eval board, none)

/-- Accumulated loop state of `analyze_game`: the three lists the loop
appends to and the final value of the `move_number` counter. -/
structure LoopOut where
  moves : List MoveRecord
  blunders : List MoveRecord
  mistakes : List MoveRecord
  move_number : Nat
deriving Repr

/-- The `for move in game.mainline_moves()` loop of `analyze_game`,
rendered as structural recursion over the remaining mainline; the
imperative appends become list conses in order.  Note the source's
`prev_score` variable is assigned but never read, so it is not carried.
`score_change` reproduces the Python truthiness test
`abs(...) if score_before and score_after else 0` (an `int` is truthy
iff nonzero). -/
def analyze_loop (engine : Option Engine) (push : Board → Move → Board)
    (depth : Nat) (board : Board) (move_number : Nat) :
    List Move → LoopOut
  | [] => ⟨[], [], [], move_number⟩
  | m :: ms =>
    let n := move_number + 1
    let score_before := evalBefore engine depth board
    let board2 := push board m
    let sa := evalAfter engine depth board2
    let score_after := sa.1
    let best_move_uci := sa.2
    let score_change : Int :=
      if score_before ≠ 0 ∧ score_after ≠ 0 then |score_before - score_after| else 0
    let move_analysis : MoveRecord :=
      { move_number := n
        move := m.uci
        score_before := score_before
        score_after := score_after
        score_change := score_change
        best_move := best_move_uci
        fen := board2.fen }
    let rest := analyze_loop engine push depth board2 n ms
    { moves := move_analysis :: rest.moves
      blunders :=
        if 200 ≤ score_change then move_analysis :: rest.blunders else rest.blunders
      mistakes :=
        if 200 ≤ score_change then rest.mistakes
        else if 100 ≤ score_change then move_analysis :: rest.mistakes
        else rest.mistakes
      move_number := rest.move_number }

/-- `ChessAnalyzer._calculate_accuracy`: counts moves whose
`score_change` is ≥ 50 as inaccurate and returns the accurate
percentage (0.0 for an empty move list). -/
def calculate_accuracy (moves : List MoveRecord) : Rat :=
  if moves.isEmpty then 0
  else
    let total_moves := moves.length
    let inaccurate_moves := moves.countP (fun m => decide (50 ≤ m.score_change))
    let accurate_moves : Int := (total_moves : Int) - (inaccurate_moves : Int)
    if 0 < total_moves then ((accurate_moves : Rat) / (total_moves : Rat)) * 100 else 0

/-- `ChessAnalyzer.analyze_game`.  `parsed` is the result of
`chess.pgn.read_game(StringIO(pgn))` (`none` = `if not game`).  The
summary's `total_moves` is the final `move_number` counter. -/
def analyze_game (push : Board → Move → Board) (engine : Option Engine)
    (parsed : Option Game) (max_depth : Nat := 15) : AnalyzeResult :=
  match parsed with
  | none => .error "Invalid PGN"
  | some game =>
    let out := analyze_loop engine push max_depth game.board 0 game.mainline
    .ok
      { moves := out.moves
        blunders := out.blunders
        mistakes := out.mistakes
        summary :=
          { total_moves := out.move_number
            blunder_count := out.blunders.length
            mistake_count := out.mistakes.length
            accuracy := calculate_accuracy out.moves } }

/-- `ChessAnalyzer.detect_blunders`: runs `analyze_game` at the default
depth and reads `analysis.get("blunders", [])` — the error dict has no
`"blunders"` key, so the default `[]` is returned for it. -/
def detect_blunders (push : Board → Move → Board) (engine : Option Engine)
    (parsed : Option Game) : List MoveRecord :=
  match analyze_game push engine parsed 15 with
  | .error _ => []
  | .ok a => a.blunders

/-- Outcome of `ChessAnalyzer.get_position_evaluation`: either an
exception escaping the call (`raised`), the `{"error": msg}` dict
(`errorResult`), or the success dict. -/
inductive PosEvalResult where
  | raised (msg : String)
  | errorResult (msg : String)
  | ok (score : Int) (best_move : Option String) (depth : Nat) (fen : String)
deriving DecidableEq, Repr

/-- `ChessAnalyzer.get_position_evaluation`.  `fenParse` models
`chess.Board(fen)`: `none` means the constructor raises `ValueError`
on an unparsable FEN — that line sits *outside* the `try`, so the
exception escapes.  Inside the `try`, an `analyse` failure is caught
and returned as `{"error": str(e)}`; when a PV move exists the source
calls `.uci()` on `best_move`, which at that point is already a `str`
(line 274 converted it), so an `AttributeError` is raised and caught,
also yielding an error dict.  Error-message strings stand in for the
dynamic `str(e)` values. -/
def get_position_evaluation (engine : Option Engine) (fen : String)
    (fenParse : Option Board) (depth : Nat := 15) : PosEvalResult :=
  match engine with
  | none => .errorResult "Stockfish engine not available"
  | some e =>
    match fenParse with
    | none => .raised "ValueError: invalid FEN"
    | some board =>
      match e.analyse board depth with
      | none => .errorResult "engine analyse raised"
      | some (score, best_move) =>
        match best_move with
        | some _ => .errorResult "AttributeError: str object has no attribute uci"
        | none => .ok score none depth fen

/-- The analyzer's own mutable attributes relevant to `close`. -/
structure AnalyzerState where
  engine : Option Engine
  stockfish_path : Option String

/-- `ChessAnalyzer.close`: `if self.engine: self.engine.quit();
self.engine = None`.  `engine.quit()` is a library call releasing the
process; it does not touch the modelled state beyond the handle. -/
def close (s : AnalyzerState) : AnalyzerState :=
  match s.engine with
  | some _ => { s with engine := none }
  | none => s

/-- `ChessAnalyzer.__del__` simply calls `close`. -/
def del_on_teardown (s : AnalyzerState) : AnalyzerState := close s

/-- Projection used to state results: the `"moves"` list of a result
dict, absent on the error dict. -/
def AnalyzeResult.movesOf : AnalyzeResult → Option (List MoveRecord)
  | .error _ => none
  | .ok a => some a.moves

/-- Projection: the summary accuracy, absent on the error dict. -/
def AnalyzeResult.accuracyOf : AnalyzeResult → Option Rat
  | .error _ => none
  | .ok a => some a.summary.accuracy

/-! ## Concrete fixtures

Small concrete instantiations of the abstract chess-library parameters,
used to evaluate the embedded code on closed inputs. -/

/-- Piece counts of one army in the standard starting position. -/
def startCount : PieceType → Nat
  | .pawn => 8
  | .knight => 2
  | .bishop => 2
  | .rook => 2
  | .queen => 1
  | .king => 1

/-- The standard starting position, as the analyzer sees it. -/
def startBoard : Board where
  pieces := fun _ => startCount
  turn := true
  fen := "rnbqkbnr/pppppppp/8/8/8/8/PPPPPPPP/RNBQKBNR w KQkq - 0 1"

/-- A parsed game with an empty mainline. -/
def game0 : Game := ⟨startBoard, []⟩

/-- A move-application function that leaves the board unchanged — enough
for games whose records we never inspect past material counts. -/
def idPush : Board → Move → Board := fun b _ => b

/-- A balanced miniature position (one pawn and one king each side),
white to move: material evaluation 0.  Stands for the position before
the capture in a game like 1. e4 d5 2. exd5. -/
def preBoard : Board where
  pieces := fun _ pt =>
    match pt with
    | .pawn => 1
    | .king => 1
    | _ => 0
  turn := true
  fen := "pre"

/-- The position after white captured the pawn, black to move: white is
a pawn up, so the side-to-move-relative material evaluation is -100. -/
def postBoard : Board where
  pieces := fun c pt =>
    match c, pt with
    | true, .pawn => 1
    | true, .king => 1
    | false, .king => 1
    | _, _ => 0
  turn := false
  fen := "post"

/-- Move application for the one-move capture game: the single pushed
move turns `preBoard` into `postBoard`. -/
def push1 : Board → Move → Board := fun _ _ => postBoard

/-- The parsed one-move capture game. -/
def game1 : Game := ⟨preBoard, [⟨"e4d5"⟩]⟩

/-- A live engine stub whose analyse call always succeeds with score 0
and an empty principal variation. -/
def dummyEngine : Engine := ⟨fun _ _ => some (0, none)⟩

/-- The record `analyze_game` produces for the single ply of `game1`
with no engine: balanced before (0), a pawn down for the side to move
after (-100), and — because `score_before` is the falsy `0` — a stored
`score_change` of 0 rather than the arithmetic 100. -/
def record1 : MoveRecord where
  move_number := 1
  move := "e4d5"
  score_before := 0
  score_after := -100
  score_change := 0
  best_move := none
  fen := "post"

/-- The full analysis dict for `game1` with no engine. -/
def analysis1 : Analysis where
  moves := [record1]
  blunders := []
  mistakes := []
  summary :=
    { total_moves := 1
      blunder_count := 0
      mistake_count := 0
      accuracy := 100 }

/-! ## Helper lemmas -/

/-- Running `analyze_game` on the one-move capture game with no engine
produces exactly `analysis1`. -/
theorem analysis1_eval : analyze_game push1 none (some game1) 15 = .ok analysis1 := by
  have hacc : calculate_accuracy [record1] = (100 : Rat) := by
    norm_num [calculate_accuracy, record1]
  show AnalyzeResult.ok
      { moves := [record1], blunders := [], mistakes := [],
        summary := { total_moves := 1, blunder_count := 0, mistake_count := 0,
                     accuracy := calculate_accuracy [record1] } } = _
  rw [hacc]
  rfl

/-- The blunders list the loop accumulates is exactly the records with
`score_change ≥ 200`, in order. -/
theorem analyze_loop_blunders_eq (engine : Option Engine) (push : Board → Move → Board)
    (depth : Nat) :
    ∀ (ms : List Move) (board : Board) (k : Nat),
      (analyze_loop engine push depth board k ms).blunders
        = (analyze_loop engine push depth board k ms).moves.filter
            (fun r => decide (200 ≤ r.score_change))
  | [], _, _ => rfl
  | m :: ms, board, k => by
    have ih := analyze_loop_blunders_eq engine push depth ms (push board m) (k + 1)
    simp only [analyze_loop, List.filter_cons, decide_eq_true_eq]
    generalize (if evalBefore engine depth board ≠ 0 ∧ (evalAfter engine depth (push board m)).1 ≠ 0
        then |evalBefore engine depth board - (evalAfter engine depth (push board m)).1| else 0) = sc
    by_cases h : 200 ≤ sc
    · simp [h, ih]
    · simp [h, ih]

/-- The mistakes list the loop accumulates is exactly the records with
`100 ≤ score_change < 200` (the `elif` keeps blunders out), in order. -/
theorem analyze_loop_mistakes_eq (engine : Option Engine) (push : Board → Move → Board)
    (depth : Nat) :
    ∀ (ms : List Move) (board : Board) (k : Nat),
      (analyze_loop engine push depth board k ms).mistakes
        = (analyze_loop engine push depth board k ms).moves.filter
            (fun r => decide (100 ≤ r.score_change ∧ r.score_change < 200))
  | [], _, _ => rfl
  | m :: ms, board, k => by
    have ih := analyze_loop_mistakes_eq engine push depth ms (push board m) (k + 1)
    simp only [analyze_loop, List.filter_cons, decide_eq_true_eq]
    generalize (if evalBefore engine depth board ≠ 0 ∧ (evalAfter engine depth (push board m)).1 ≠ 0
        then |evalBefore engine depth board - (evalAfter engine depth (push board m)).1| else 0) = sc
    by_cases h : 200 ≤ sc
    · have h2 : ¬ (sc < 200) := by omega
      simp [h, h2, ih]
    · by_cases h2 : 100 ≤ sc
      · have h3 : sc < 200 := by omega
        simp [h, h2, h3, ih]
      · simp [h, h2, ih]

/-- The `move_number` fields of the accumulated records count up from
one past the initial counter, with no gaps. -/
theorem analyze_loop_map_move_number (engine : Option Engine) (push : Board → Move → Board)
    (depth : Nat) :
    ∀ (ms : List Move) (board : Board) (k : Nat),
      (analyze_loop engine push depth board k ms).moves.map MoveRecord.move_number
        = List.range' (k + 1) ms.length
  | [], _, _ => rfl
  | m :: ms, board, k => by
    have ih := analyze_loop_map_move_number engine push depth ms (push board m) (k + 1)
    simp only [analyze_loop, List.map_cons, List.length_cons, List.range'_succ, ih]

/-- One record is accumulated per mainline move. -/
theorem analyze_loop_length (engine : Option Engine) (push : Board → Move → Board)
    (depth : Nat) (ms : List Move) (board : Board) (k : Nat) :
    (analyze_loop engine push depth board k ms).moves.length = ms.length := by
  have h := congrArg List.length (analyze_loop_map_move_number engine push depth ms board k)
  simpa using h

/-- The final `move_number` counter is the initial one plus the number
of moves walked. -/
theorem analyze_loop_final_count (engine : Option Engine) (push : Board → Move → Board)
    (depth : Nat) :
    ∀ (ms : List Move) (board : Board) (k : Nat),
      (analyze_loop engine push depth board k ms).move_number = k + ms.length
  | [], _, _ => by simp [analyze_loop]
  | m :: ms, board, k => by
    have ih := analyze_loop_final_count engine push depth ms (push board m) (k + 1)
    simp only [analyze_loop, ih, List.length_cons]
    omega

/-- With no engine, the i-th record carries no best move and both its
scores are the material evaluation of the boards reached by pushing the
first i (resp. i+1) mainline moves. -/
theorem analyze_loop_no_engine_get (push : Board → Move → Board) (depth : Nat) :
    ∀ (ms : List Move) (board : Board) (k i : Nat), i < ms.length →
      ((analyze_loop none push depth board k ms).moves.get? i).map
          (fun r => (r.best_move, r.score_before, r.score_after))
        = some (none, material_eval ((ms.take i).foldl push board),
                material_eval ((ms.take (i + 1)).foldl push board))
  | [], _, _, i, hi => absurd hi (by simp)
  | m :: ms, board, k, 0, _ => by
    simp [analyze_loop, evalBefore, evalAfter]
  | m :: ms, board, k, i + 1, hi => by
    have ih := analyze_loop_no_engine_get push depth ms (push board m) (k + 1) i
      (by simpa using Nat.lt_of_succ_lt_succ hi)
    simpa [analyze_loop, List.take_succ_cons, List.foldl_cons] using ih

/-- Accuracy of an empty record list is 0. -/
theorem calculate_accuracy_nil : calculate_accuracy [] = 0 := rfl

/-- For a nonempty record list, accuracy is the accurate fraction of
the plies times 100, a ply being inaccurate iff its delta is ≥ 50. -/
theorem calculate_accuracy_nonempty (moves : List MoveRecord) (h : moves ≠ []) :
    calculate_accuracy moves
      = (((moves.length : Rat) - (moves.countP (fun m => decide (50 ≤ m.score_change)) : Rat))
          / (moves.length : Rat)) * 100 := by
  have hne : moves.isEmpty = false := by
    cases moves with
    | nil => exact absurd rfl h
    | cons a l => rfl
  have hpos : 0 < moves.length := List.length_pos.mpr h
  simp only [calculate_accuracy, hne, Bool.false_eq_true, if_false, hpos, if_true]
  push_cast
  ring

/-- Accuracy always lies in [0, 100]. -/
theorem calculate_accuracy_bounds (moves : List MoveRecord) :
    0 ≤ calculate_accuracy moves ∧ calculate_accuracy moves ≤ 100 := by
  rcases eq_or_ne moves [] with h | h
  · subst h
    constructor <;> norm_num [calculate_accuracy]
  · have hacc := calculate_accuracy_nonempty moves h
    have hpos : (0 : Rat) < moves.length := by
      exact_mod_cast List.length_pos.mpr h
    have hcount : (moves.countP (fun m => decide (50 ≤ m.score_change)) : Rat)
        ≤ (moves.length : Rat) := by
      exact_mod_cast List.countP_le_length _
    have hnum : (0 : Rat) ≤ (moves.length : Rat)
        - (moves.countP (fun m => decide (50 ≤ m.score_change)) : Rat) := by linarith
    have hdiv1 : ((moves.length : Rat)
        - (moves.countP (fun m => decide (50 ≤ m.score_change)) : Rat))
          / (moves.length : Rat) ≤ 1 := by
      rw [div_le_one hpos]
      have : (0 : Rat) ≤ (moves.countP (fun m => decide (50 ≤ m.score_change)) : Rat) := by
        positivity
      linarith
    constructor
    · rw [hacc]
      have := div_nonneg hnum (le_of_lt hpos)
      linarith
    · rw [hacc]
      nlinarith

/-- For a nonempty record list, accuracy is exactly 100 iff no ply has
a delta of 50 or more. -/
theorem calculate_accuracy_eq_100_iff (moves : List MoveRecord) (h : moves ≠ []) :
    calculate_accuracy moves = 100 ↔ ∀ r ∈ moves, r.score_change < 50 := by
  have hacc := calculate_accuracy_nonempty moves h
  have hpos : (0 : Rat) < (moves.length : Rat) := by
    exact_mod_cast List.length_pos.mpr h
  rw [hacc]
  have hstep :
      (((moves.length : Rat) - (moves.countP (fun m => decide (50 ≤ m.score_change)) : Rat))
          / (moves.length : Rat)) * 100 = 100
        ↔ moves.countP (fun m => decide (50 ≤ m.score_change)) = 0 := by
    constructor
    · intro hq
      have h1 : ((moves.length : Rat)
          - (moves.countP (fun m => decide (50 ≤ m.score_change)) : Rat))
            / (moves.length : Rat) = 1 := by linarith
      have h2 := (div_eq_one_iff_eq (ne_of_gt hpos)).mp h1
      have h3 : (moves.countP (fun m => decide (50 ≤ m.score_change)) : Rat) = 0 := by
        linarith
      exact_mod_cast h3
    · intro hq
      rw [hq]
      push_cast
      rw [sub_zero, div_self (ne_of_gt hpos)]
      ring
  rw [hstep, List.countP_eq_zero]
  simp

/-! ## Claims -/

/-- C1: the claim states that every record's stored `score_change`
equals `|score_before - score_after|` exactly, also when either score
is exactly zero.  The code instead stores 0 whenever either score is
zero (the Python truthiness guard on line 189).  Evaluating the
embedded code on the one-move capture game with no engine: the sole
record has `score_before` 0 (balanced position), `score_after` -100
(side to move a pawn down), stored `score_change` 0, while the
arithmetic absolute delta is 100. -/
theorem c1_delta_dropped_on_zero_score :
    (analyze_game push1 none (some game1) 15).movesOf = some [record1] ∧
    record1.score_before = 0 ∧ record1.score_after = -100 ∧
    record1.score_change = 0 ∧
    |record1.score_before - record1.score_after| = 100 := by
  refine ⟨?_, rfl, rfl, rfl, by decide⟩
  rw [analysis1_eval]
  rfl

/-- C2: a record produced by `analyze_game` is in the blunders
partition iff its delta is ≥ 200 and in the mistakes partition iff
100 ≤ delta < 200; the two partitions are disjoint and every member of
either also satisfies the delta ≥ 50 inaccuracy condition. -/
theorem c2_partition_thresholds (push : Board → Move → Board)
    (engine : Option Engine) (parsed : Option Game) (d : Nat) (a : Analysis)
    (h : analyze_game push engine parsed d = .ok a) :
    (∀ r ∈ a.moves, (r ∈ a.blunders ↔ 200 ≤ r.score_change) ∧
        (r ∈ a.mistakes ↔ 100 ≤ r.score_change ∧ r.score_change < 200)) ∧
    (∀ r ∈ a.blunders, r ∉ a.mistakes) ∧
    (∀ r ∈ a.blunders, 50 ≤ r.score_change) ∧
    (∀ r ∈ a.mistakes, 50 ≤ r.score_change) := by
  cases parsed with
  | none => simp [analyze_game] at h
  | some g =>
    simp only [analyze_game] at h
    cases h
    have hb := analyze_loop_blunders_eq engine push d g.mainline g.board 0
    have hm := analyze_loop_mistakes_eq engine push d g.mainline g.board 0
    refine ⟨?_, ?_, ?_, ?_⟩
    · intro r hr
      constructor
      · rw [show (Analysis.blunders _) = _ from hb]
        simp [List.mem_filter, hr]
      · rw [show (Analysis.mistakes _) = _ from hm]
        simp [List.mem_filter, hr]
    · intro r hrb hrm
      rw [show (Analysis.blunders _) = _ from hb] at hrb
      rw [show (Analysis.mistakes _) = _ from hm] at hrm
      simp [List.mem_filter] at hrb hrm
      omega
    · intro r hrb
      rw [show (Analysis.blunders _) = _ from hb] at hrb
      simp [List.mem_filter] at hrb
      omega
    · intro r hrm
      rw [show (Analysis.mistakes _) = _ from hm] at hrm
      simp [List.mem_filter] at hrm
      omega

/-- Witness for C2: the one-move capture game analysed with no engine;
its record (delta 0) is in neither partition, and both membership
biconditionals hold for it. -/
theorem c2_partition_thresholds_witness :
    (record1 ∈ analysis1.blunders ↔ 200 ≤ record1.score_change) ∧
    (record1 ∈ analysis1.mistakes ↔ 100 ≤ record1.score_change ∧ record1.score_change < 200) ∧
    record1 ∉ analysis1.blunders := by
  have H := c2_partition_thresholds push1 none (some game1) 15 analysis1 analysis1_eval
  have h1 := (H.1 record1 (by decide)).1
  have h2 := (H.1 record1 (by decide)).2
  refine ⟨h1, h2, fun hmem => absurd (h1.mp hmem) (by decide)⟩

/-- C3 (amended): the summary accuracy equals
(total − inaccurate) / total × 100 with a ply inaccurate iff its delta
is ≥ 50, it always lies in [0, 100], it is 0 for a zero-move game, and
— for games with at least one ply — it is 100 iff no move has delta
≥ 50.  The claim's biconditional cannot hold for the zero-move game
(see the counterexample), so it is restricted to nonempty games. -/
theorem c3_accuracy_spec (push : Board → Move → Board) (engine : Option Engine)
    (parsed : Option Game) (d : Nat) (a : Analysis)
    (h : analyze_game push engine parsed d = .ok a) :
    0 ≤ a.summary.accuracy ∧ a.summary.accuracy ≤ 100 ∧
    (a.moves ≠ [] →
      (a.summary.accuracy
          = (((a.moves.length : Rat)
              - (a.moves.countP (fun m => decide (50 ≤ m.score_change)) : Rat))
            / (a.moves.length : Rat)) * 100 ∧
        (a.summary.accuracy = 100 ↔ ∀ r ∈ a.moves, r.score_change < 50))) ∧
    (a.moves = [] → a.summary.accuracy = 0) := by
  cases parsed with
  | none => simp [analyze_game] at h
  | some g =>
    simp only [analyze_game] at h
    cases h
    refine ⟨(calculate_accuracy_bounds _).1, (calculate_accuracy_bounds _).2, ?_, ?_⟩
    · intro hne
      exact ⟨calculate_accuracy_nonempty _ hne, calculate_accuracy_eq_100_iff _ hne⟩
    · intro he
      show calculate_accuracy (analyze_loop engine push d g.board 0 g.mainline).moves = 0
      have he2 : (analyze_loop engine push d g.board 0 g.mainline).moves = [] := he
      rw [he2, calculate_accuracy_nil]

/-- Counterexample for C3: the zero-move game.  Its record list is
empty, so vacuously no move has delta ≥ 50; yet the reported accuracy
is 0, not 100, refuting the claim's biconditional as stated. -/
theorem c3_counterexample :
    (analyze_game idPush none (some game0) 15).movesOf = some [] ∧
    (analyze_game idPush none (some game0) 15).accuracyOf = some 0 ∧
    (0 : Rat) ≠ 100 := by
  refine ⟨by decide, by decide, by norm_num⟩

/-- Witness for C3: the one-move capture game analysed with no engine
(delta 0 on its only ply, so accuracy is exactly 100). -/
theorem c3_accuracy_spec_witness :
    0 ≤ analysis1.summary.accuracy ∧ analysis1.summary.accuracy ≤ 100 ∧
    analysis1.summary.accuracy = 100 := by
  have H := c3_accuracy_spec push1 none (some game1) 15 analysis1 analysis1_eval
  exact ⟨H.1, H.2.1, ((H.2.2.1 (by decide)).2).mpr (by decide)⟩

/-- C4: with no engine, `analyze_game` on any parseable game returns a
full analysis (never an error, and the embedding is a total function,
so no exception), with one record per ply, every `score_before` and
`score_after` given by the material-fallback formula on the boards
reached by pushing the mainline prefix, and no record carrying a best
move. -/
theorem c4_no_engine_material_fallback (push : Board → Move → Board) (g : Game) (d : Nat) :
    (∃ a, analyze_game push none (some g) d = .ok a) ∧
    (∀ a, analyze_game push none (some g) d = .ok a →
      a.moves.length = g.mainline.length ∧
      ∀ i, i < g.mainline.length →
        ((a.moves.get? i).map (fun r => (r.best_move, r.score_before, r.score_after))
          = some (none, material_eval ((g.mainline.take i).foldl push g.board),
                  material_eval ((g.mainline.take (i + 1)).foldl push g.board)))) := by
  constructor
  · exact ⟨_, rfl⟩
  · intro a h
    simp only [analyze_game] at h
    cases h
    exact ⟨analyze_loop_length none push d g.mainline g.board 0,
           fun i hi => analyze_loop_no_engine_get push d g.mainline g.board 0 i hi⟩

/-- Witness for C4: the one-move capture game with no engine; its
single record has no best move and material-formula scores. -/
theorem c4_no_engine_material_fallback_witness :
    analysis1.moves.length = game1.mainline.length ∧
    ((analysis1.moves.get? 0).map (fun r => (r.best_move, r.score_before, r.score_after))
      = some (none, material_eval ((game1.mainline.take 0).foldl push1 game1.board),
              material_eval ((game1.mainline.take 1).foldl push1 game1.board))) := by
  have H := (c4_no_engine_material_fallback push1 game1 15).2 analysis1 analysis1_eval
  exact ⟨H.1, H.2 0 (by decide)⟩

/-- C5 (amended): `analyze_game` on unparsable input returns the
distinguished error dict (never throws — the embedding is total); but
the structural failure does NOT propagate through `detect_blunders` as
an error indicator: `detect_blunders` maps the error result to the
plain empty list. -/
theorem c5_invalid_input_propagation (push : Board → Move → Board)
    (engine : Option Engine) (d : Nat) :
    analyze_game push engine none d = .error "Invalid PGN" ∧
    detect_blunders push engine none = [] :=
  ⟨rfl, rfl⟩

/-- Counterexample for C5: unparsable input gives `detect_blunders`
result `[]`, identical to its result on a perfectly valid blunder-free
game — a silent empty result with no error indicator, contrary to the
claim. -/
theorem c5_counterexample :
    detect_blunders idPush none none = [] ∧
    detect_blunders idPush none (some game0) = [] ∧
    detect_blunders idPush none none = detect_blunders idPush none (some game0) :=
  ⟨rfl, rfl, rfl⟩

/-- C6: for every parseable game, `analyze_game` produces exactly one
record per ply, their `move_number` fields are 1, 2, ..., N in order
with no gaps, and the summary's `total_moves` is N. -/
theorem c6_ply_numbering (push : Board → Move → Board) (engine : Option Engine)
    (g : Game) (d : Nat) (a : Analysis)
    (h : analyze_game push engine (some g) d = .ok a) :
    a.moves.length = g.mainline.length ∧
    a.moves.map MoveRecord.move_number = List.range' 1 g.mainline.length ∧
    a.summary.total_moves = g.mainline.length := by
  simp only [analyze_game] at h
  cases h
  refine ⟨analyze_loop_length engine push d g.mainline g.board 0, ?_, ?_⟩
  · exact analyze_loop_map_move_number engine push d g.mainline g.board 0
  · show (analyze_loop engine push d g.board 0 g.mainline).move_number = _
    rw [analyze_loop_final_count engine push d g.mainline g.board 0]
    omega

/-- Witness for C6: the one-move capture game with no engine. -/
theorem c6_ply_numbering_witness :
    analysis1.moves.length = game1.mainline.length ∧
    analysis1.moves.map MoveRecord.move_number = List.range' 1 game1.mainline.length ∧
    analysis1.summary.total_moves = game1.mainline.length :=
  c6_ply_numbering push1 none game1 15 analysis1 analysis1_eval

/-- C7: the claim says `get_position_evaluation` returns a structured
error on an unparsable FEN or with no engine, never letting an
exception escape.  With no engine the code indeed returns the error
dict (second conjunct); but with an engine available, the
`chess.Board(fen)` construction sits outside the `try`, so an
unparsable FEN raises `ValueError` uncaught (first conjunct): the code
contradicts the claimed error handling. -/
theorem c7_bad_fen_exception_escapes :
    get_position_evaluation (some dummyEngine) "bad fen" none 15
      = .raised "ValueError: invalid FEN" ∧
    get_position_evaluation none "bad fen" none 15
      = .errorResult "Stockfish engine not available" :=
  ⟨rfl, rfl⟩

/-- C8: the fallback evaluator sums the piece values pawn 100, knight
300, bishop 300, rook 500, queen 900, king 0 per side, takes white
minus black and negates when black is to move; it is a total function
producing no best move (the fallback branch of the per-move evaluation
yields `none`); it returns 0 on the starting position and on any
position with symmetric material, whoever is to move. -/
theorem c8_material_eval_spec (b : Board)
    (hsym : ∀ pt, b.pieces true pt = b.pieces false pt) :
    material_eval b = 0 ∧
    material_eval startBoard = 0 ∧
    piece_value .pawn = 100 ∧ piece_value .knight = 300 ∧ piece_value .bishop = 300 ∧
    piece_value .rook = 500 ∧ piece_value .queen = 900 ∧ piece_value .king = 0 ∧
    (∀ (c : Bool → PieceType → Nat) (f1 f2 : String),
        material_eval ⟨c, false, f1⟩ = -material_eval ⟨c, true, f2⟩) ∧
    (∀ (d : Nat) (bd : Board), evalAfter none d bd = (material_eval bd, none)) := by
  have hsym0 : material_eval b = 0 := by
    simp [material_eval, pieceTypes, hsym]
  refine ⟨hsym0, by decide, rfl, rfl, rfl, rfl, rfl, rfl, ?_, fun d bd => rfl⟩
  intro c f1 f2
  simp [material_eval]

/-- Witness for C8: the starting position is materially symmetric, so
the theorem applies to it and gives evaluation 0. -/
theorem c8_material_eval_spec_witness :
    material_eval startBoard = 0 ∧ piece_value PieceType.pawn = 100 := by
  have H := c8_material_eval_spec startBoard (fun pt => rfl)
  exact ⟨H.1, H.2.2.1⟩

/-- C9: `close` is idempotent — calling it twice (or any positive
number of times) equals calling it once, it leaves the engine handle
released, it is a total function (never raises), and `__del__`
performs exactly a `close`. -/
theorem c9_close_idempotent (s : AnalyzerState) :
    close (close s) = close s ∧ (close s).engine = none ∧
    del_on_teardown s = close s ∧
    (∀ n : Nat, close^[n + 1] s = close s) := by
  have hnone : (close s).engine = none := by
    cases h : s.engine <;> simp [close, h]
  have hidem : close (close s) = close s := by
    cases h : s.engine <;> simp [close, h]
  refine ⟨hidem, hnone, rfl, ?_⟩
  intro n
  induction n with
  | zero => simp
  | succ k ih => rw [Function.iterate_succ_apply', ih, hidem]

/-- C10: `detect_blunders` returns exactly the blunders partition of
the analysis `analyze_game` produces for the same input at the default
depth 15, and the empty list when `analyze_game` returns the error
dict for unparsable input. -/
theorem c10_detect_blunders_eq_partition (push : Board → Move → Board)
    (engine : Option Engine) (parsed : Option Game) :
    (∀ a, analyze_game push engine parsed 15 = .ok a →
        detect_blunders push engine parsed = a.blunders) ∧
    (∀ msg, analyze_game push engine parsed 15 = .error msg →
        detect_blunders push engine parsed = []) := by
  constructor
  · intro a h
    simp [detect_blunders, h]
  · intro msg h
    simp [detect_blunders, h]

/-- Witness for C10: the one-move capture game with no engine, and the
unparsable input. -/
theorem c10_detect_blunders_eq_partition_witness :
    detect_blunders push1 none (some game1) = analysis1.blunders ∧
    detect_blunders idPush none none = [] :=
  ⟨(c10_detect_blunders_eq_partition push1 none (some game1)).1 analysis1 analysis1_eval,
   (c10_detect_blunders_eq_partition idPush none none).2 "Invalid PGN" rfl⟩

end ChessAnalyzer
